import Mathlib

/-!
Verification of the `python-ragic` data-extraction client
(`src/ragic/main.py`): a shallow embedding of the `QueryFilterType`
enum and of the `DataClient` query-compilation / fetch / normalization
pipeline, followed by theorems about the pipeline.

Modelling conventions:
* Python dicts whose iteration order matters are association lists
  (`List (String × _)`); lookup is first-match, mirroring unique-key dicts.
* Exceptions are `Except String _` (the message is the offending key) or
  `Option` where the surrounding code catches everything.
* A pandas `DataFrame` is column-major: an ordered list of named columns.
* `float32` cells keep the accepted source text instead of an IEEE value:
  no property below depends on numeric magnitude, only on whether a string
  is accepted by `astype("float32")` and on the cell's kind.
-/

deriving instance DecidableEq for Except

/-- Mirrors the `QueryFilterType` enum of `src/ragic/main.py`. -/
inductive QueryFilterType
  | EQUAL
  | GTE
  | LTE
  | GT
  | LT
  | CONTAINS
deriving DecidableEq

/-- Mirrors `DataClient._translate`: internal operator to Ragic query code. -/
def translateOp : QueryFilterType → String
  | QueryFilterType.EQUAL => "eq"
  | QueryFilterType.GTE => "gte"
  | QueryFilterType.LTE => "lte"
  | QueryFilterType.GT => "gt"
  | QueryFilterType.LT => "lt"
  | QueryFilterType.CONTAINS => "like"

/-- A filter value, Python `str | int` in the signature of `_compile`. -/
inductive FieldValue
  | strV (s : String)
  | intV (n : Int)
deriving DecidableEq

/-- Rendering of a filter value inside the f-string of `_compile`. -/
def FieldValue.render : FieldValue → String
  | FieldValue.strV s => s
  | FieldValue.intV n => toString n

/-- Python dict lookup `d[k]` on an association list: the first binding of
`k`, `none` when the key is absent (a `KeyError` in the source). -/
def dictGet? {α : Type} : List (String × α) → String → Option α
  | [], _ => none
  | p :: rest, k => if p.1 = k then some p.2 else dictGet? rest k

/-- One entry of the `columns` mapping of the structure file:
`{ fieldId, type }`. -/
structure ColumnInfo where
  fieldId : String
  type : String
deriving DecidableEq

/-- One entry of the `tables` mapping: `{ identifier, columns }`. -/
structure TableStructure where
  identifier : String
  columns : List (String × ColumnInfo)
deriving DecidableEq

/-- One entry of the `tabs` mapping: `{ identifier, tables }`. -/
structure TabStructure where
  identifier : String
  tables : List (String × TableStructure)
deriving DecidableEq

/-- The loaded structure file: `{ tabs }`. -/
structure RagicStructure where
  tabs : List (String × TabStructure)
deriving DecidableEq

/-- A filter condition `(field_name, operator, field_value)`. -/
abbrev FilterCond := String × QueryFilterType × FieldValue

/-- The loop of `DataClient._compile`: one `where=` clause per condition, a
`KeyError` (carrying the field name) on the first unresolvable field. -/
def compileFilters (cols : List (String × ColumnInfo)) :
    List FilterCond → Except String (List String)
  | [] => Except.ok []
  | (fn, op, fv) :: rest =>
    match dictGet? cols fn with
    | none => Except.error fn
    | some ci =>
      match compileFilters cols rest with
      | Except.error e => Except.error e
      | Except.ok rs =>
          Except.ok
            (("where=" ++ ci.fieldId ++ "," ++ translateOp op ++ "," ++ fv.render) :: rs)

/-- Mirrors `DataClient._compile`: join the clauses with `&` and prefix the
whole segment with `&`. -/
def compileQuery (ts : TableStructure) (filters : List FilterCond) :
    Except String String :=
  match compileFilters ts.columns filters with
  | Except.error e => Except.error e
  | Except.ok outs => Except.ok ("&" ++ String.intercalate "&" outs)

/-- The `DataClient` instance state relevant to querying: configuration,
loaded structure, and the three private query-state fields. -/
structure Client where
  base_url : String
  namespace_ : String
  api_key : String
  version : Int
  struct : RagicStructure
  query_string : Option String
  active_tab : Option String
  active_table : Option String
deriving DecidableEq

/-- The base query string built at the top of `define_query`. -/
def baseQueryString (c : Client) (include_subtable : Bool) : String :=
  "v=" ++ toString c.version ++ "&info=true&listing=true&subtables=" ++
    (if include_subtable then "1" else "0")

/-- Mirrors `DataClient.define_query`.  The second component is the raised
exception, if any; the first is the client afterwards (unchanged when an
exception is raised, since the three assignments come last in the source). -/
def define_query (c : Client) (tab_name table_name : String)
    (conditions : Option (List FilterCond)) (include_subtable : Bool) :
    Client × Option String :=
  let query0 := baseQueryString c include_subtable
  let result : Except String String :=
    match conditions with
    | none => Except.ok query0
    | some conds =>
      match dictGet? c.struct.tabs tab_name with
      | none => Except.error tab_name
      | some tabS =>
        match dictGet? tabS.tables table_name with
        | none => Except.error table_name
        | some ts =>
          match compileQuery ts conds with
          | Except.error e => Except.error e
          | Except.ok seg => Except.ok (query0 ++ seg)
  match result with
  | Except.error e => (c, some e)
  | Except.ok qs =>
      ({ c with query_string := some qs, active_tab := some tab_name,
                active_table := some table_name }, none)

/-- A cell of the normalized table: a backend string, pandas missing data
(`pd.NA` / `NaN`), or a `float32` (keeping its accepted source text). -/
inductive Cell
  | na
  | str (s : String)
  | float (txt : String)
deriving DecidableEq

/-- One record of the backend JSON response: field key to string value. -/
abbrev RawRecord := List (String × String)

/-- The backend JSON response: record id to record. -/
abbrev RawRecordSet := List (String × RawRecord)

/-- The skip test of the flatten loop in `get_dataframe`:
`field.startswith("_") and field != "_create_date" and field != "_update_date"`.
The one-character `startswith` is a head-character test. -/
def isSystemField (f : String) : Bool :=
  (match f.data with
   | [] => false
   | c :: _ => c == '_') && f != "_create_date" && f != "_update_date"

/-- One iteration of the inner field loop of `get_dataframe`: skip system
fields, record a newly seen field name, append the value. -/
def recordStep (acc : List String × List Cell) (fv : String × String) :
    List String × List Cell :=
  if isSystemField fv.1 then acc
  else ((if fv.1 ∈ acc.1 then acc.1 else acc.1 ++ [fv.1]),
        acc.2 ++ [Cell.str fv.2])

/-- One iteration of the outer record loop of `get_dataframe`: a row starts
with the record's own key, then the inner field loop runs. -/
def flattenStep (acc : List String × List (List Cell)) (p : String × RawRecord) :
    List String × List (List Cell) :=
  let inner := p.2.foldl recordStep (acc.1, [Cell.str p.1])
  (inner.1, acc.2 ++ [inner.2])

/-- The flatten phase of `get_dataframe`: the column-name list (seeded with
`"index"`) and the list of rows. -/
def flattenData (data : RawRecordSet) : List String × List (List Cell) :=
  data.foldl flattenStep (["index"], [])

/-- A pandas DataFrame, column-major: ordered named columns. -/
structure DF where
  cols : List (String × List Cell)
deriving DecidableEq

/-- Column lookup `df[name]`. -/
def DF.getCol? (df : DF) (name : String) : Option (List Cell) :=
  dictGet? df.cols name

/-- Column assignment `df[name] = v` (the name is already present whenever
the source performs it). -/
def DF.setCol (df : DF) (name : String) (v : List Cell) : DF :=
  DF.mk (df.cols.map (fun p => if p.1 = name then (p.1, v) else p))

/-- Number of rows: the length of the first column. -/
def DF.nrows (df : DF) : Nat :=
  match df.cols with
  | [] => 0
  | c :: _ => c.2.length

/-- pandas `df.empty`: no columns or no rows. -/
def DF.emptyDF (df : DF) : Bool :=
  df.cols.isEmpty || df.nrows == 0

/-- The column-major transposition performed by
`pd.DataFrame(values, columns=names)`: column `i` holds each row's `i`-th
cell, short rows padded with missing values. -/
def mkCols : List String → List (List Cell) → List (String × List Cell)
  | [], _ => []
  | nm :: rest, rows =>
      (nm, rows.map (fun r => r.headD Cell.na)) ::
        mkCols rest (rows.map (fun r => r.tail))

/-- `pd.DataFrame(values, columns=names)`: raises (hence `none`) when some
row is longer than the column list, otherwise pads short rows with `NaN`. -/
def mkDF (names : List String) (rows : List (List Cell)) : Option DF :=
  if ∀ r ∈ rows, r.length ≤ names.length then some (DF.mk (mkCols names rows))
  else none

/-- The `transform` lambda of the numeric branch:
`pd.NA if x == "" else x`. -/
def transformNumCell (c : Cell) : Cell :=
  if c = Cell.str "" then Cell.na else c

/-- The `transform` lambda of the text branch:
`"Missing Value" if x == "" else x`. -/
def transformTextCell (c : Cell) : Cell :=
  if c = Cell.str "" then Cell.str "Missing Value" else c

/-- Acceptance test of `astype("float32")` for a string cell: an optional
sign, then digits with at most one decimal point.  The exact extension of
the accepted grammar is irrelevant to every claim. -/
def isFloatLiteral (s : String) : Bool :=
  let cs := match s.data with
    | c :: rest => if c == '-' || c == '+' then rest else c :: rest
    | [] => []
  (cs.any (fun c => c.isDigit)) &&
  (cs.all (fun c => c.isDigit || c == '.')) &&
  decide ((cs.filter (fun c => c == '.')).length ≤ 1)

/-- `astype("float32")` on one cell: missing data stays missing, floats stay
floats, strings must parse. -/
def astypeCell : Cell → Option Cell
  | Cell.na => some Cell.na
  | Cell.float v => some (Cell.float v)
  | Cell.str s => if isFloatLiteral s then some (Cell.float s) else none

/-- `astype("float32")` on a whole column; `none` is the raised `ValueError`. -/
def astypeFloat32 : List Cell → Option (List Cell)
  | [] => some []
  | c :: rest =>
    match astypeCell c, astypeFloat32 rest with
    | some c2, some rest2 => some (c2 :: rest2)
    | _, _ => none

/-- One iteration of the coercion loop of `get_dataframe`: look the column
up (a `KeyError` when absent), then the numeric or the text branch. -/
def coerceColumn (df : DF) (name ty : String) : Option DF :=
  match df.getCol? name with
  | none => none
  | some col =>
    if ty = "number" then
      match astypeFloat32 (col.map transformNumCell) with
      | none => none
      | some col2 => some (df.setCol name col2)
    else
      some (df.setCol name (col.map transformTextCell))

/-- The coercion loop of `get_dataframe` over the declared columns of the
active table; `none` is any exception raised inside the loop. -/
def coerceColumns (decls : List (String × ColumnInfo)) (df : DF) : Option DF :=
  match decls with
  | [] => some df
  | (nm, ci) :: rest =>
    match coerceColumn df nm ci.type with
    | none => none
    | some d2 => coerceColumns rest d2

/-- The response-processing body of the `try` block of `get_dataframe`:
flatten, build the DataFrame, return `None` on an empty frame, coerce.
Every exception inside the block yields `none` at the caller. -/
def normalizeData (decls : List (String × ColumnInfo)) (data : RawRecordSet) :
    Option DF :=
  match mkDF (flattenData data).1 (flattenData data).2 with
  | none => none
  | some df => if df.emptyDF then none else coerceColumns decls df

/-- Outcome of `requests.get(...)` + `raise_for_status` + `response.json()`:
either some `requests` exception (network failure or non-2xx status), or
the parsed JSON record set. -/
inductive FetchResult
  | transportError (msg : String)
  | ok (data : RawRecordSet)

/-- Mirrors `DataClient.get_dataframe`.  Components of the result: the
client afterwards (the method never writes `self`), the returned value or
raised exception, and the URL of the HTTP GET (`none` when no HTTP call
was performed). -/
def get_dataframe (c : Client) (offset limit : Int) (fetch : FetchResult) :
    Client × Except String (Option DF) × Option String :=
  match c.query_string, c.active_tab, c.active_table with
  | some qs, some tab, some tbl =>
    match dictGet? c.struct.tabs tab with
    | none => (c, Except.error tab, none)
    | some tabS =>
      match dictGet? tabS.tables tbl with
      | none => (c, Except.error tbl, none)
      | some tblS =>
        let url := c.base_url ++ "/" ++ c.namespace_ ++ "/" ++
          tabS.identifier ++ "/" ++ tblS.identifier ++ "?" ++ qs ++
          "&limit=" ++ toString limit ++ "&offset=" ++ toString offset
        match fetch with
        | FetchResult.transportError _ => (c, Except.ok none, some url)
        | FetchResult.ok data =>
            (c, Except.ok (normalizeData tblS.columns data), some url)
  | _, _, _ => (c, Except.error "Query not ready!!!", none)

/-- Specification-side field-retention test (§4.4 step 1): every field is
kept except the system fields, i.e. the negation of the skip test. -/
def keepField (f : String) : Bool := !(isSystemField f)

/-- Specification-side row shape: the record's kept field values, in the
record's own order. -/
def specRecordCells (rec : RawRecord) : List Cell :=
  (rec.filter (fun fv => keepField fv.1)).map (fun fv => Cell.str fv.2)

/-- Specification-side accumulation of one field name into the first-seen
column list. -/
def specColStep (a : List String) (fv : String × String) : List String :=
  if keepField fv.1 then (if fv.1 ∈ a then a else a ++ [fv.1]) else a

/-- Specification-side column list (§4.4 step 2): `"index"`, then the union
of kept field names over all records, in first-seen order. -/
def specColumns (data : RawRecordSet) : List String :=
  data.foldl (fun a p => p.2.foldl specColStep a) ["index"]

/-- Column predicate: a fully coerced numeric column (missing or float). -/
def NumDone (col : List Cell) : Prop :=
  ∀ c ∈ col, c = Cell.na ∨ ∃ s, c = Cell.float s

/-- Column predicate: a fully coerced text column (no empty-string cell). -/
def TextDone (col : List Cell) : Prop :=
  ∀ c ∈ col, c ≠ Cell.str ""

/-- The demonstration schema of the specification (§8): a `number` column
`Amount` with field id `1001` and a `text` column `Name` with `1002`. -/
def demoColumns : List (String × ColumnInfo) :=
  [("Amount", ColumnInfo.mk "1001" "number"),
   ("Name", ColumnInfo.mk "1002" "text")]

/-- The demonstration table `Donations`. -/
def demoTable : TableStructure := TableStructure.mk "forms/1" demoColumns

/-- The demonstration tab `PB`. -/
def demoTab : TabStructure := TabStructure.mk "ragicforms1" [("Donations", demoTable)]

/-- The demonstration structure file. -/
def demoStructure : RagicStructure := RagicStructure.mk [("PB", demoTab)]

/-- A client with an active query on the demonstration table. -/
def demoClient : Client :=
  Client.mk "https://api.ragic.com" "acme" "APIKEY" 3 demoStructure
    (some "v=3&info=true&listing=true&subtables=0") (some "PB") (some "Donations")

/-- A freshly constructed client: no query defined yet. -/
def demoClientUnready : Client :=
  Client.mk "https://api.ragic.com" "acme" "APIKEY" 3 demoStructure
    none none none

/-- The demonstration record set of the specification (§8). -/
def demoData : RawRecordSet :=
  [("1", [("Amount", ""), ("Name", "Alice")]),
   ("2", [("Amount", "50"), ("Name", "")])]

/-- The DataFrame obtained by flattening `demoData`. -/
def demoDF : DF :=
  DF.mk [("index", [Cell.str "1", Cell.str "2"]),
         ("Amount", [Cell.str "", Cell.str "50"]),
         ("Name", [Cell.str "Alice", Cell.str ""])]

/-- `demoDF` after the coercion loop. -/
def demoDFCoerced : DF :=
  DF.mk [("index", [Cell.str "1", Cell.str "2"]),
         ("Amount", [Cell.na, Cell.float "50"]),
         ("Name", [Cell.str "Alice", Cell.str "Missing Value"])]

/-- A record set whose second record lacks the first-seen field `a`. -/
def cex2data : RawRecordSet :=
  [("r1", [("a", "1"), ("b", "2")]), ("r2", [("b", "9")])]

/-- The DataFrame the code builds from `cex2data`: the value `"9"` of field
`b` of record `r2` lands under column `a`. -/
def cex2df : DF :=
  DF.mk [("index", [Cell.str "r1", Cell.str "r2"]),
         ("a", [Cell.str "1", Cell.str "9"]),
         ("b", [Cell.str "2", Cell.na])]

/-! ## Theorems -/

theorem compileFilters_resolved (cols : List (String × ColumnInfo))
    (filters : List FilterCond)
    (h : ∀ f ∈ filters, (dictGet? cols f.1).isSome) :
    compileFilters cols filters = Except.ok (filters.map (fun f =>
      "where=" ++ ((dictGet? cols f.1).map ColumnInfo.fieldId).getD "" ++ "," ++
        translateOp f.2.1 ++ "," ++ f.2.2.render)) := by
  induction filters with
  | nil => rfl
  | cons f rest ih =>
    obtain ⟨fn, op, fv⟩ := f
    have hf := h (fn, op, fv) (List.mem_cons_self _ _)
    obtain ⟨ci, hci⟩ := Option.isSome_iff_exists.mp hf
    have ih' := ih (fun g hg => h g (List.mem_cons_of_mem _ hg))
    simp [compileFilters, hci, ih']

/-- C1: for every table structure and every list of conditions whose field
names all resolve in the structure, `_compile` returns the string made of
exactly one `where=<fieldId>,<operatorCode>,<value>` clause per condition,
in input order, with the fixed operator codes of `_translate`, the clauses
joined with `&` and the whole segment prefixed with `&`. -/
theorem compile_one_clause_per_condition (ts : TableStructure)
    (filters : List FilterCond)
    (h : ∀ f ∈ filters, (dictGet? ts.columns f.1).isSome) :
    compileQuery ts filters = Except.ok ("&" ++ String.intercalate "&"
      (filters.map (fun f => "where=" ++
        ((dictGet? ts.columns f.1).map ColumnInfo.fieldId).getD "" ++ "," ++
        translateOp f.2.1 ++ "," ++ f.2.2.render))) := by
  have hk := compileFilters_resolved ts.columns filters h
  simp [compileQuery, hk]

/-- Witness for C1 at the specification's §8 scenario: compiling
`[("Amount", greater-than, 10)]` against the demonstration schema yields
the segment `&where=1001,gt,10`. -/
theorem compile_one_clause_per_condition_witness :
    (∀ f ∈ [(("Amount", QueryFilterType.GT, FieldValue.intV 10) : FilterCond)],
      (dictGet? demoTable.columns f.1).isSome) ∧
    compileQuery demoTable [("Amount", QueryFilterType.GT, FieldValue.intV 10)] =
      Except.ok "&where=1001,gt,10" :=
  ⟨by decide, by
    have h := compile_one_clause_per_condition demoTable
      [("Amount", QueryFilterType.GT, FieldValue.intV 10)] (by decide)
    exact h.trans (by decide)⟩

theorem compileFilters_unresolved (cols : List (String × ColumnInfo))
    (conds : List FilterCond)
    (h : ∃ f ∈ conds, dictGet? cols f.1 = none) :
    ∃ e, compileFilters cols conds = Except.error e := by
  induction conds with
  | nil => obtain ⟨f, hf, _⟩ := h; exact absurd hf (List.not_mem_nil f)
  | cons g rest ih =>
    obtain ⟨gn, gop, gv⟩ := g
    rcases hl : dictGet? cols gn with _ | ci
    · exact ⟨gn, by simp [compileFilters, hl]⟩
    · obtain ⟨f, hf, hnone⟩ := h
      rcases List.mem_cons.mp hf with heq | hmem
      · rw [heq] at hnone; simp only at hnone; rw [hl] at hnone; exact absurd hnone (by simp)
      · obtain ⟨e, he⟩ := ih ⟨f, hmem, hnone⟩
        exact ⟨e, by simp [compileFilters, hl, he]⟩

/-- C6: compiling a query whose conditions contain a field name that is not
declared in the active table's columns fails with the field-lookup error
and leaves the client (query string, active tab, active table) unchanged. -/
theorem define_query_unknown_field_fails (c : Client) (tab tbl : String)
    (tabS : TabStructure) (tblS : TableStructure) (conds : List FilterCond)
    (inc : Bool)
    (h1 : dictGet? c.struct.tabs tab = some tabS)
    (h2 : dictGet? tabS.tables tbl = some tblS)
    (h3 : ∃ f ∈ conds, dictGet? tblS.columns f.1 = none) :
    ∃ e, define_query c tab tbl (some conds) inc = (c, some e) := by
  obtain ⟨e, he⟩ := compileFilters_unresolved tblS.columns conds h3
  exact ⟨e, by simp [define_query, compileQuery, h1, h2, he]⟩

/-- Witness for C6: a condition on the undeclared field `Nope` makes
`define_query` fail and leaves the fresh client unchanged. -/
theorem define_query_unknown_field_fails_witness :
    dictGet? demoClientUnready.struct.tabs "PB" = some demoTab ∧
    dictGet? demoTab.tables "Donations" = some demoTable ∧
    (∃ f ∈ [(("Nope", QueryFilterType.EQUAL, FieldValue.strV "x") : FilterCond)],
      dictGet? demoTable.columns f.1 = none) ∧
    ∃ e, define_query demoClientUnready "PB" "Donations"
      (some [("Nope", QueryFilterType.EQUAL, FieldValue.strV "x")]) false =
      (demoClientUnready, some e) :=
  ⟨by decide, by decide,
   ⟨("Nope", QueryFilterType.EQUAL, FieldValue.strV "x"), by decide, by decide⟩,
   define_query_unknown_field_fails demoClientUnready "PB" "Donations"
     demoTab demoTable _ false (by decide) (by decide)
     ⟨("Nope", QueryFilterType.EQUAL, FieldValue.strV "x"), by decide, by decide⟩⟩

/-- C7: calling `get_dataframe` on a client whose query string, active tab
or active table is unset raises the `Query not ready!!!` error and performs
no HTTP call (no request URL is produced). -/
theorem get_dataframe_not_ready (c : Client) (offset limit : Int)
    (fetch : FetchResult)
    (h : c.query_string = none ∨ c.active_tab = none ∨ c.active_table = none) :
    get_dataframe c offset limit fetch =
      (c, Except.error "Query not ready!!!", none) := by
  unfold get_dataframe
  rcases hq : c.query_string with _ | qs <;>
    rcases ht : c.active_tab with _ | tab <;>
      rcases hb : c.active_table with _ | tbl <;>
        simp_all

/-- Witness for C7: the freshly constructed client has no query defined, so
`get_dataframe` raises and performs no HTTP call. -/
theorem get_dataframe_not_ready_witness :
    (demoClientUnready.query_string = none ∨
      demoClientUnready.active_tab = none ∨
      demoClientUnready.active_table = none) ∧
    get_dataframe demoClientUnready 0 100 (FetchResult.ok demoData) =
      (demoClientUnready, Except.error "Query not ready!!!", none) :=
  ⟨Or.inl (by decide),
   get_dataframe_not_ready demoClientUnready 0 100 (FetchResult.ok demoData)
     (Or.inl (by decide))⟩

/-- C5: a record set with zero entries normalizes to the explicit empty
signal `none`, which differs from `some` of any table that has columns but
zero data rows. -/
theorem normalize_empty_record_set (decls : List (String × ColumnInfo)) :
    normalizeData decls [] = none ∧
    ∀ df : DF, df.cols ≠ [] → df.nrows = 0 → normalizeData decls [] ≠ some df := by
  refine ⟨rfl, ?_⟩
  intro df _ _ hcontra
  rw [show normalizeData decls [] = none from rfl] at hcontra
  exact Option.noConfusion hcontra

/-- Witness for C5: with the demonstration schema, the empty record set
yields `none`, distinct from the header-only table `[("index", [])]`. -/
theorem normalize_empty_record_set_witness :
    normalizeData demoColumns [] = none ∧
    (DF.mk [("index", [])]).cols ≠ [] ∧
    (DF.mk [("index", [])]).nrows = 0 ∧
    normalizeData demoColumns [] ≠ some (DF.mk [("index", [])]) :=
  ⟨(normalize_empty_record_set demoColumns).1, by decide, by decide,
   (normalize_empty_record_set demoColumns).2 _ (by decide) (by decide)⟩

theorem dictGet?_some_mem {α : Type} {l : List (String × α)} {k : String} {v : α}
    (h : dictGet? l k = some v) : k ∈ l.map Prod.fst := by
  induction l with
  | nil => simp [dictGet?] at h
  | cons p rest ih =>
    rw [dictGet?] at h
    by_cases hpk : p.1 = k
    · simp [hpk]
    · rw [if_neg hpk] at h
      simp [ih h]

theorem dictGet?_none_of_not_mem {α : Type} {l : List (String × α)} {k : String}
    (h : k ∉ l.map Prod.fst) : dictGet? l k = none := by
  induction l with
  | nil => rfl
  | cons p rest ih =>
    rw [List.map_cons, List.mem_cons] at h
    push_neg at h
    rw [dictGet?, if_neg (fun hh => h.1 hh.symm)]
    exact ih h.2

theorem setCol_cols_map_fst (df : DF) (nm : String) (v : List Cell) :
    (df.setCol nm v).cols.map Prod.fst = df.cols.map Prod.fst := by
  obtain ⟨l⟩ := df
  simp only [DF.setCol]
  induction l with
  | nil => rfl
  | cons p rest ih =>
    by_cases hp : p.1 = nm <;> simp [hp, ih]

theorem coerceColumn_cols_map_fst {df d2 : DF} {nm ty : String}
    (h : coerceColumn df nm ty = some d2) :
    d2.cols.map Prod.fst = df.cols.map Prod.fst := by
  unfold coerceColumn at h
  rcases hg : df.getCol? nm with _ | col
  · simp [hg] at h
  · simp only [hg] at h
    by_cases hty : ty = "number"
    · rw [if_pos hty] at h
      rcases ha : astypeFloat32 (col.map transformNumCell) with _ | col2
      · simp [ha] at h
      · simp only [ha, Option.some.injEq] at h
        rw [← h]
        exact setCol_cols_map_fst df nm col2
    · rw [if_neg hty] at h
      rw [Option.some.injEq] at h
      rw [← h]
      exact setCol_cols_map_fst df nm _

theorem coerceColumn_isSome_mem {df d2 : DF} {nm ty : String}
    (h : coerceColumn df nm ty = some d2) : nm ∈ df.cols.map Prod.fst := by
  unfold coerceColumn at h
  rcases hg : df.getCol? nm with _ | col
  · rw [hg] at h; exact absurd h (by simp)
  · exact dictGet?_some_mem hg

theorem coerceColumns_missing :
    ∀ (decls : List (String × ColumnInfo)) (df : DF),
      (∃ nm ci, (nm, ci) ∈ decls ∧ nm ∉ df.cols.map Prod.fst) →
      coerceColumns decls df = none := by
  intro decls
  induction decls with
  | nil =>
    intro df h
    obtain ⟨nm, ci, hmem, _⟩ := h
    exact absurd hmem (List.not_mem_nil _)
  | cons q rest ih =>
    intro df h
    obtain ⟨m, mi⟩ := q
    obtain ⟨nm, ci, hmem, hnot⟩ := h
    rw [coerceColumns]
    rcases hcc : coerceColumn df m mi.type with _ | d2
    · rfl
    · rcases List.mem_cons.mp hmem with heq | htail
      · obtain ⟨rfl, rfl⟩ := Prod.mk.injEq .. ▸ And.intro (congrArg Prod.fst heq) (congrArg Prod.snd heq)
        exact absurd (coerceColumn_isSome_mem hcc) hnot
      · refine ih d2 ⟨nm, ci, htail, ?_⟩
        rw [coerceColumn_cols_map_fst hcc]
        exact hnot

theorem foldl_recordStep_fst_prefix :
    ∀ (rec : RawRecord) (acc : List String × List Cell),
      ∃ t, (rec.foldl recordStep acc).1 = acc.1 ++ t := by
  intro rec
  induction rec with
  | nil => exact fun acc => ⟨[], (List.append_nil _).symm⟩
  | cons fv rest ih =>
    intro acc
    rw [List.foldl_cons]
    rcases hsys : isSystemField fv.1 with _ | _
    · by_cases hmem : fv.1 ∈ acc.1
      · obtain ⟨t, ht⟩ := ih (recordStep acc fv)
        refine ⟨t, ht.trans ?_⟩
        simp [recordStep, hsys, hmem]
      · obtain ⟨t, ht⟩ := ih (recordStep acc fv)
        refine ⟨fv.1 :: t, ht.trans ?_⟩
        simp [recordStep, hsys, hmem]
    · obtain ⟨t, ht⟩ := ih (recordStep acc fv)
      refine ⟨t, ht.trans ?_⟩
      simp [recordStep, hsys]

theorem foldl_flattenStep_fst_prefix :
    ∀ (data : RawRecordSet) (acc : List String × List (List Cell)),
      ∃ t, (data.foldl flattenStep acc).1 = acc.1 ++ t := by
  intro data
  induction data with
  | nil => exact fun acc => ⟨[], (List.append_nil _).symm⟩
  | cons p rest ih =>
    intro acc
    rw [List.foldl_cons]
    obtain ⟨t1, ht1⟩ := foldl_recordStep_fst_prefix p.2 (acc.1, [Cell.str p.1])
    obtain ⟨t2, ht2⟩ := ih (flattenStep acc p)
    refine ⟨t1 ++ t2, ht2.trans ?_⟩
    show (flattenStep acc p).1 ++ t2 = acc.1 ++ (t1 ++ t2)
    rw [flattenStep]
    simp only []
    rw [ht1, List.append_assoc]

theorem flattenData_fst_head (data : RawRecordSet) :
    ∃ t, (flattenData data).1 = "index" :: t := by
  obtain ⟨t, ht⟩ := foldl_flattenStep_fst_prefix data (["index"], [])
  exact ⟨t, ht⟩

theorem foldl_flattenStep_snd_length :
    ∀ (data : RawRecordSet) (acc : List String × List (List Cell)),
      (data.foldl flattenStep acc).2.length = acc.2.length + data.length := by
  intro data
  induction data with
  | nil => intro acc; simp
  | cons p rest ih =>
    intro acc
    rw [List.foldl_cons, ih]
    simp only [flattenStep, List.length_append, List.length_cons, List.length_nil]
    omega

theorem flattenData_snd_length (data : RawRecordSet) :
    (flattenData data).2.length = data.length := by
  have h := foldl_flattenStep_snd_length data (["index"], [])
  simpa [flattenData] using h

theorem mkCols_map_fst :
    ∀ (names : List String) (rows : List (List Cell)),
      (mkCols names rows).map Prod.fst = names := by
  intro names
  induction names with
  | nil => intro rows; rfl
  | cons nm rest ih => intro rows; simp [mkCols, ih]

theorem normalizeData_nil (decls : List (String × ColumnInfo)) :
    normalizeData decls [] = none := rfl

/-- C4: with an active query whose tab and table resolve, a transport
failure (network error or non-2xx status) makes `get_dataframe` return the
empty result `none` instead of raising, and the whole outcome is identical
to that of an empty page. -/
theorem get_dataframe_transport_failure (c : Client) (qs tab tbl : String)
    (tabS : TabStructure) (tblS : TableStructure) (offset limit : Int)
    (msg : String)
    (hq : c.query_string = some qs) (ht : c.active_tab = some tab)
    (hb : c.active_table = some tbl)
    (h1 : dictGet? c.struct.tabs tab = some tabS)
    (h2 : dictGet? tabS.tables tbl = some tblS) :
    (get_dataframe c offset limit (FetchResult.transportError msg)).2.1 =
      Except.ok none ∧
    get_dataframe c offset limit (FetchResult.transportError msg) =
      get_dataframe c offset limit (FetchResult.ok []) := by
  unfold get_dataframe
  simp [hq, ht, hb, h1, h2, normalizeData_nil]

/-- Witness for C4: a transport failure on the demonstration client yields
`none` and the same outcome as an empty page. -/
theorem get_dataframe_transport_failure_witness :
    demoClient.query_string = some "v=3&info=true&listing=true&subtables=0" ∧
    demoClient.active_tab = some "PB" ∧
    demoClient.active_table = some "Donations" ∧
    dictGet? demoClient.struct.tabs "PB" = some demoTab ∧
    dictGet? demoTab.tables "Donations" = some demoTable ∧
    ((get_dataframe demoClient 0 100 (FetchResult.transportError "boom")).2.1 =
       Except.ok none ∧
     get_dataframe demoClient 0 100 (FetchResult.transportError "boom") =
       get_dataframe demoClient 0 100 (FetchResult.ok [])) :=
  ⟨by decide, by decide, by decide, by decide, by decide,
   get_dataframe_transport_failure demoClient
     "v=3&info=true&listing=true&subtables=0" "PB" "Donations" demoTab demoTable
     0 100 "boom" (by decide) (by decide) (by decide) (by decide) (by decide)⟩

/-- C9: for every client in the QueryDefined state and every offset, limit
and fetch outcome (success, empty, or failure), `get_dataframe` leaves the
client — hence the query string, active tab and active table — unchanged. -/
theorem get_dataframe_preserves_state (c : Client) (qs tab tbl : String)
    (offset limit : Int) (fetch : FetchResult)
    (hq : c.query_string = some qs) (ht : c.active_tab = some tab)
    (hb : c.active_table = some tbl) :
    (get_dataframe c offset limit fetch).1 = c := by
  rcases h1 : dictGet? c.struct.tabs tab with _ | tabS
  · simp [get_dataframe, hq, ht, hb, h1]
  · rcases h2 : dictGet? tabS.tables tbl with _ | tblS
    · simp [get_dataframe, hq, ht, hb, h1, h2]
    · cases fetch <;> simp [get_dataframe, hq, ht, hb, h1, h2]

/-- Witness for C9: fetching on the demonstration client returns the client
unchanged. -/
theorem get_dataframe_preserves_state_witness :
    demoClient.query_string = some "v=3&info=true&listing=true&subtables=0" ∧
    demoClient.active_tab = some "PB" ∧
    demoClient.active_table = some "Donations" ∧
    (get_dataframe demoClient 7 50 (FetchResult.ok demoData)).1 = demoClient :=
  ⟨by decide, by decide, by decide,
   get_dataframe_preserves_state demoClient
     "v=3&info=true&listing=true&subtables=0" "PB" "Donations" 7 50
     (FetchResult.ok demoData) (by decide) (by decide) (by decide)⟩

/-- C10: with an active resolvable query and a non-empty record set, if some
column declared in the active table's schema does not occur among the
columns derived from the fetched records, `get_dataframe` returns the empty
result `none` (the lookup failure inside the coercion loop is caught),
rather than a table or an exception. -/
theorem get_dataframe_missing_declared_column (c : Client)
    (qs tab tbl : String) (tabS : TabStructure) (tblS : TableStructure)
    (offset limit : Int) (data : RawRecordSet)
    (hq : c.query_string = some qs) (ht : c.active_tab = some tab)
    (hb : c.active_table = some tbl)
    (h1 : dictGet? c.struct.tabs tab = some tabS)
    (h2 : dictGet? tabS.tables tbl = some tblS)
    (hne : data ≠ [])
    (hmiss : ∃ nm ci, (nm, ci) ∈ tblS.columns ∧ nm ∉ (flattenData data).1) :
    (get_dataframe c offset limit (FetchResult.ok data)).2.1 = Except.ok none := by
  unfold get_dataframe
  simp only [hq, ht, hb, h1, h2]
  suffices hnd : normalizeData tblS.columns data = none by simp [hnd]
  unfold normalizeData
  rcases hmk : mkDF (flattenData data).1 (flattenData data).2 with _ | df
  · rfl
  · unfold mkDF at hmk
    by_cases hall : ∀ r ∈ (flattenData data).2, r.length ≤ (flattenData data).1.length
    case neg => rw [if_neg hall] at hmk; exact absurd hmk (by simp)
    case pos =>
      rw [if_pos hall, Option.some.injEq] at hmk
      obtain ⟨t, hhead⟩ := flattenData_fst_head data
      have hcols : df.cols = mkCols (flattenData data).1 (flattenData data).2 := by
        rw [← hmk]
      have hlen : (flattenData data).2.length ≠ 0 := by
        rw [flattenData_snd_length]
        simpa using (List.length_pos.mpr hne).ne'
      have hempty : df.emptyDF = false := by
        rw [DF.emptyDF, DF.nrows, hcols, hhead]
        simp only [mkCols, List.isEmpty_cons, List.length_map, Bool.false_or]
        simpa using hlen
      show (if df.emptyDF = true then none else coerceColumns tblS.columns df) = none
      rw [hempty]
      simp only [Bool.false_eq_true, if_false]
      obtain ⟨nm, ci, hmem, hnot⟩ := hmiss
      refine coerceColumns_missing tblS.columns df ⟨nm, ci, hmem, ?_⟩
      rw [hcols, mkCols_map_fst]
      exact hnot

/-- Witness for C10: the demonstration table declares `Name`, but a page
whose single record only carries `Amount` makes `get_dataframe` return
`none`. -/
theorem get_dataframe_missing_declared_column_witness :
    demoClient.query_string = some "v=3&info=true&listing=true&subtables=0" ∧
    demoClient.active_tab = some "PB" ∧
    demoClient.active_table = some "Donations" ∧
    dictGet? demoClient.struct.tabs "PB" = some demoTab ∧
    dictGet? demoTab.tables "Donations" = some demoTable ∧
    ([("1", [("Amount", "5")])] : RawRecordSet) ≠ [] ∧
    (∃ nm ci, (nm, ci) ∈ demoTable.columns ∧
      nm ∉ (flattenData [("1", [("Amount", "5")])]).1) ∧
    (get_dataframe demoClient 0 100
      (FetchResult.ok [("1", [("Amount", "5")])])).2.1 = Except.ok none :=
  ⟨by decide, by decide, by decide, by decide, by decide, by decide,
   ⟨"Name", ColumnInfo.mk "1002" "text", by decide, by decide⟩,
   get_dataframe_missing_declared_column demoClient
     "v=3&info=true&listing=true&subtables=0" "PB" "Donations" demoTab demoTable
     0 100 [("1", [("Amount", "5")])] (by decide) (by decide) (by decide)
     (by decide) (by decide) (by decide)
     ⟨"Name", ColumnInfo.mk "1002" "text", by decide, by decide⟩⟩

theorem foldl_recordStep_snd :
    ∀ (rec : RawRecord) (cols : List String) (vals : List Cell),
      (rec.foldl recordStep (cols, vals)).2 = vals ++ specRecordCells rec := by
  intro rec
  induction rec with
  | nil => intro cols vals; simp [specRecordCells]
  | cons fv rest ih =>
    intro cols vals
    rw [List.foldl_cons]
    cases hsys : isSystemField fv.1 with
    | true =>
      have hstep : recordStep (cols, vals) fv = (cols, vals) := by
        simp [recordStep, hsys]
      rw [hstep, ih]
      simp [specRecordCells, keepField, List.filter_cons, hsys]
    | false =>
      have hstep : recordStep (cols, vals) fv =
          ((if fv.1 ∈ cols then cols else cols ++ [fv.1]),
           vals ++ [Cell.str fv.2]) := by
        simp [recordStep, hsys]
      rw [hstep, ih]
      simp [specRecordCells, keepField, List.filter_cons, hsys]

theorem foldl_recordStep_fst :
    ∀ (rec : RawRecord) (cols : List String) (vals : List Cell),
      (rec.foldl recordStep (cols, vals)).1 = rec.foldl specColStep cols := by
  intro rec
  induction rec with
  | nil => intro cols vals; rfl
  | cons fv rest ih =>
    intro cols vals
    rw [List.foldl_cons, List.foldl_cons]
    cases hsys : isSystemField fv.1 with
    | true =>
      have hstep : recordStep (cols, vals) fv = (cols, vals) := by
        simp [recordStep, hsys]
      have hspec : specColStep cols fv = cols := by
        simp [specColStep, keepField, hsys]
      rw [hstep, hspec, ih]
    | false =>
      have hstep : recordStep (cols, vals) fv =
          ((if fv.1 ∈ cols then cols else cols ++ [fv.1]),
           vals ++ [Cell.str fv.2]) := by
        simp [recordStep, hsys]
      have hspec : specColStep cols fv =
          (if fv.1 ∈ cols then cols else cols ++ [fv.1]) := by
        simp [specColStep, keepField, hsys]
      rw [hstep, hspec, ih]

theorem foldl_flattenStep_eq :
    ∀ (data : RawRecordSet) (cols : List String) (rows : List (List Cell)),
      data.foldl flattenStep (cols, rows) =
        (data.foldl (fun a p => p.2.foldl specColStep a) cols,
         rows ++ data.map (fun p => Cell.str p.1 :: specRecordCells p.2)) := by
  intro data
  induction data with
  | nil => intro cols rows; simp
  | cons p rest ih =>
    intro cols rows
    rw [List.foldl_cons, List.foldl_cons]
    have hstep : flattenStep (cols, rows) p =
        (p.2.foldl specColStep cols,
         rows ++ [Cell.str p.1 :: specRecordCells p.2]) := by
      rw [flattenStep]
      have h1 := foldl_recordStep_fst p.2 cols [Cell.str p.1]
      have h2 := foldl_recordStep_snd p.2 cols [Cell.str p.1]
      simp only [h1, h2, List.singleton_append]
    rw [hstep, ih]
    simp [List.append_assoc]

/-- C2 (amended): the flatten step produces one row per record; each row is
the record's own key (under the leading `"index"` column) followed by the
record's kept field values — `_`-prefixed fields other than `_create_date`
and `_update_date` skipped — appended positionally in the record's own
field order (so a cell lands under its field-name column only when the
record's kept fields follow the first-seen column order); the column list
is `"index"` then the union of kept fields across records, first-seen
order. -/
theorem flatten_rows_positional (data : RawRecordSet) :
    (flattenData data).1 = specColumns data ∧
    (flattenData data).2 =
      data.map (fun p => Cell.str p.1 :: specRecordCells p.2) := by
  have h := foldl_flattenStep_eq data ["index"] []
  rw [flattenData, h, specColumns]
  exact ⟨rfl, by simp⟩

/-- C2 as stated is refuted: in `cex2data`, record `"r2"` carries the field
`"b"` with value `"9"`, yet in the table the code builds, row 2's cell
under column `"b"` is the missing marker while `"9"` sits under column
`"a"` — field values are not placed under their field-name columns. -/
theorem flatten_misplaces_heterogeneous_record :
    mkDF (flattenData cex2data).1 (flattenData cex2data).2 = some cex2df ∧
    dictGet? ((cex2data.getD 1 ("", [])).2) "b" = some "9" ∧
    cex2df.getCol? "b" = some [Cell.str "2", Cell.na] ∧
    cex2df.getCol? "a" = some [Cell.str "1", Cell.str "9"] ∧
    Cell.na ≠ Cell.str "9" := by decide

theorem mapSet_get_self {α : Type} {nm : String} {v : α} :
    ∀ (l : List (String × α)), (dictGet? l nm).isSome →
      dictGet? (l.map (fun p => if p.1 = nm then (p.1, v) else p)) nm = some v := by
  intro l
  induction l with
  | nil => intro h; simp [dictGet?] at h
  | cons p rest ih =>
    intro h
    by_cases hp : p.1 = nm
    · simp [dictGet?, hp]
    · rw [dictGet?, if_neg hp] at h
      simp only [List.map_cons]
      rw [if_neg hp, dictGet?, if_neg hp]
      exact ih h

theorem mapSet_get_ne {α : Type} {nm m : String} {v : α} (hne : m ≠ nm) :
    ∀ (l : List (String × α)),
      dictGet? (l.map (fun p => if p.1 = nm then (p.1, v) else p)) m = dictGet? l m := by
  intro l
  induction l with
  | nil => rfl
  | cons p rest ih =>
    simp only [List.map_cons]
    by_cases hp : p.1 = nm
    · rw [if_pos hp]
      have hpm : ¬p.1 = m := fun hh => hne ((hh.symm.trans hp))
      simp only [dictGet?]
      rw [if_neg hpm, if_neg hpm]
      exact ih
    · rw [if_neg hp]
      simp only [dictGet?]
      by_cases hm : p.1 = m
      · rw [if_pos hm, if_pos hm]
      · rw [if_neg hm, if_neg hm]
        exact ih

theorem mapSet_nomem_id {α : Type} {nm : String} {v : α} :
    ∀ (l : List (String × α)), nm ∉ l.map Prod.fst →
      l.map (fun p => if p.1 = nm then (p.1, v) else p) = l := by
  intro l
  induction l with
  | nil => intro _; rfl
  | cons p rest ih =>
    intro h
    rw [List.map_cons, List.mem_cons] at h
    push_neg at h
    rw [List.map_cons, if_neg (fun hh => h.1 hh.symm), ih h.2]

theorem mapSet_self_id {α : Type} {nm : String} :
    ∀ (l : List (String × α)), (l.map Prod.fst).Nodup →
      ∀ col, dictGet? l nm = some col →
        l.map (fun p => if p.1 = nm then (p.1, col) else p) = l := by
  intro l
  induction l with
  | nil => intro _ col h; simp [dictGet?] at h
  | cons p rest ih =>
    intro hnd col h
    rw [List.map_cons, List.nodup_cons] at hnd
    by_cases hp : p.1 = nm
    · rw [dictGet?, if_pos hp, Option.some.injEq] at h
      rw [List.map_cons, if_pos hp, ← h, Prod.mk.eta,
        mapSet_nomem_id rest (hp ▸ hnd.1)]
    · rw [dictGet?, if_neg hp] at h
      rw [List.map_cons, if_neg hp, ih hnd.2 col h]

theorem getCol?_setCol_self {df : DF} {nm : String} {col0 : List Cell}
    (h : df.getCol? nm = some col0) (v : List Cell) :
    (df.setCol nm v).getCol? nm = some v :=
  mapSet_get_self df.cols (Option.isSome_iff_exists.mpr ⟨col0, h⟩)

theorem getCol?_setCol_ne {df : DF} {nm m : String} (hne : m ≠ nm)
    (v : List Cell) :
    (df.setCol nm v).getCol? m = df.getCol? m :=
  mapSet_get_ne hne df.cols

theorem setCol_self {df : DF} {nm : String} {col : List Cell}
    (hnd : (df.cols.map Prod.fst).Nodup) (h : df.getCol? nm = some col) :
    df.setCol nm col = df := by
  obtain ⟨l⟩ := df
  simp only [DF.setCol, DF.mk.injEq]
  exact mapSet_self_id l hnd col h

theorem astypeCell_shape {a b : Cell} (h : astypeCell a = some b) :
    b = Cell.na ∨ ∃ s, b = Cell.float s := by
  cases a with
  | na =>
    rw [astypeCell, Option.some.injEq] at h
    exact Or.inl h.symm
  | float s =>
    rw [astypeCell, Option.some.injEq] at h
    exact Or.inr ⟨s, h.symm⟩
  | str s =>
    rw [astypeCell] at h
    by_cases hf : isFloatLiteral s
    · rw [if_pos hf, Option.some.injEq] at h
      exact Or.inr ⟨s, h.symm⟩
    · rw [if_neg hf] at h
      exact absurd h (by simp)

theorem astypeFloat32_forall2 :
    ∀ {col col' : List Cell}, astypeFloat32 col = some col' →
      List.Forall₂ (fun a b => astypeCell a = some b) col col' := by
  intro col
  induction col with
  | nil =>
    intro col' h
    rw [astypeFloat32, Option.some.injEq] at h
    rw [← h]
    exact List.Forall₂.nil
  | cons c rest ih =>
    intro col' h
    rw [astypeFloat32] at h
    rcases hc : astypeCell c with _ | c2
    · rw [hc] at h
      simp at h
    · rcases hr : astypeFloat32 rest with _ | rest2
      · rw [hc, hr] at h
        simp at h
      · rw [hc, hr] at h
        simp only [Option.some.injEq] at h
        rw [← h]
        exact List.Forall₂.cons hc (ih hr)

theorem numDone_astypeFloat32 :
    ∀ {col col' : List Cell}, astypeFloat32 col = some col' → NumDone col' := by
  intro col
  induction col with
  | nil =>
    intro col' h
    rw [astypeFloat32, Option.some.injEq] at h
    rw [← h]
    intro c hc
    exact absurd hc (List.not_mem_nil _)
  | cons c rest ih =>
    intro col' h
    rw [astypeFloat32] at h
    rcases hc : astypeCell c with _ | c2
    · rw [hc] at h
      simp at h
    · rcases hr : astypeFloat32 rest with _ | rest2
      · rw [hc, hr] at h
        simp at h
      · rw [hc, hr] at h
        simp only [Option.some.injEq] at h
        rw [← h]
        intro x hx
        rcases List.mem_cons.mp hx with hhead | htail
        · exact hhead ▸ astypeCell_shape hc
        · exact ih hr x htail

theorem transformNum_id_of_numDone {col : List Cell} (h : NumDone col) :
    col.map transformNumCell = col := by
  induction col with
  | nil => rfl
  | cons c rest ih =>
    rw [List.map_cons, ih (fun x hx => h x (List.mem_cons_of_mem _ hx))]
    rcases h c (List.mem_cons_self _ _) with hna | ⟨s, hf⟩
    · rw [hna]; rfl
    · rw [hf]; rfl

theorem astype_id_of_numDone {col : List Cell} (h : NumDone col) :
    astypeFloat32 col = some col := by
  induction col with
  | nil => rfl
  | cons c rest ih =>
    rw [astypeFloat32, ih (fun x hx => h x (List.mem_cons_of_mem _ hx))]
    rcases h c (List.mem_cons_self _ _) with hna | ⟨s, hf⟩
    · rw [hna]; rfl
    · rw [hf]; rfl

theorem transformText_id_of_textDone {col : List Cell} (h : TextDone col) :
    col.map transformTextCell = col := by
  induction col with
  | nil => rfl
  | cons c rest ih =>
    rw [List.map_cons, ih (fun x hx => h x (List.mem_cons_of_mem _ hx))]
    rw [transformTextCell, if_neg (h c (List.mem_cons_self _ _))]

theorem textDone_transformText (col : List Cell) :
    TextDone (col.map transformTextCell) := by
  intro c hc
  rw [List.mem_map] at hc
  obtain ⟨a, _, ha⟩ := hc
  rw [← ha, transformTextCell]
  by_cases hae : a = Cell.str ""
  · rw [if_pos hae]
    decide
  · rw [if_neg hae]
    exact hae

theorem coerceColumn_some_elim {df d2 : DF} {nm ty : String}
    (h : coerceColumn df nm ty = some d2) :
    ∃ col, df.getCol? nm = some col ∧
      ((ty = "number" ∧ ∃ col2, astypeFloat32 (col.map transformNumCell) = some col2 ∧
          d2 = df.setCol nm col2) ∨
       (ty ≠ "number" ∧ d2 = df.setCol nm (col.map transformTextCell))) := by
  unfold coerceColumn at h
  rcases hg : df.getCol? nm with _ | col
  · rw [hg] at h
    simp at h
  · rw [hg] at h
    simp only [] at h
    refine ⟨col, rfl, ?_⟩
    by_cases hty : ty = "number"
    · rw [if_pos hty] at h
      rcases ha : astypeFloat32 (col.map transformNumCell) with _ | col2
      · rw [ha] at h
        simp at h
      · rw [ha] at h
        simp only [Option.some.injEq] at h
        exact Or.inl ⟨hty, col2, rfl, h.symm⟩
    · rw [if_neg hty] at h
      simp only [Option.some.injEq] at h
      exact Or.inr ⟨hty, h.symm⟩

theorem coerceColumns_char :
    ∀ (decls : List (String × ColumnInfo)) (df df' : DF),
      (decls.map Prod.fst).Nodup →
      coerceColumns decls df = some df' →
      df'.cols.map Prod.fst = df.cols.map Prod.fst ∧
      (∀ m, m ∉ decls.map Prod.fst → df'.getCol? m = df.getCol? m) ∧
      (∀ nm ci, (nm, ci) ∈ decls →
        ∃ col col', df.getCol? nm = some col ∧ df'.getCol? nm = some col' ∧
          (ci.type = "number" →
            astypeFloat32 (col.map transformNumCell) = some col') ∧
          (ci.type ≠ "number" → col' = col.map transformTextCell)) := by
  intro decls
  induction decls with
  | nil =>
    intro df df' _ hc
    rw [coerceColumns, Option.some.injEq] at hc
    rw [← hc]
    exact ⟨rfl, fun m _ => rfl,
      fun nm ci hmem => absurd hmem (List.not_mem_nil _)⟩
  | cons q rest ih =>
    intro df df' hnd hc
    obtain ⟨m, mi⟩ := q
    rw [coerceColumns] at hc
    rcases hcc : coerceColumn df m mi.type with _ | d2
    · rw [hcc] at hc
      simp at hc
    · rw [hcc] at hc
      simp only [] at hc
      rw [List.map_cons, List.nodup_cons] at hnd
      obtain ⟨hm_rest, hnd_rest⟩ := hnd
      obtain ⟨ihfst, ihun, ihdecl⟩ := ih d2 df' hnd_rest hc
      obtain ⟨col, hg, hbranch⟩ := coerceColumn_some_elim hcc
      have hd2cols : d2.cols.map Prod.fst = df.cols.map Prod.fst :=
        coerceColumn_cols_map_fst hcc
      refine ⟨ihfst.trans hd2cols, ?_, ?_⟩
      · intro m' hm'
        rw [List.map_cons, List.mem_cons] at hm'
        push_neg at hm'
        have h1 : df'.getCol? m' = d2.getCol? m' := ihun m' hm'.2
        rcases hbranch with ⟨_, col2, _, hd2⟩ | ⟨_, hd2⟩ <;>
          rw [h1, hd2, getCol?_setCol_ne hm'.1]
      · intro nm ci hmem
        rcases List.mem_cons.mp hmem with hhead | htail
        · injection hhead with h1 h2
          subst h1
          subst h2
          rcases hbranch with ⟨hty, col2, ha, hd2⟩ | ⟨hty, hd2⟩
          · refine ⟨col, col2, hg, ?_, fun _ => ha,
              fun hcontra => absurd hty hcontra⟩
            rw [ihun nm hm_rest, hd2]
            exact getCol?_setCol_self hg col2
          · refine ⟨col, col.map transformTextCell, hg, ?_,
              fun hcontra => absurd hcontra hty, fun _ => rfl⟩
            rw [ihun nm hm_rest, hd2]
            exact getCol?_setCol_self hg _
        · obtain ⟨col1, col', hgd2, hgdf', hnum, htext⟩ := ihdecl nm ci htail
          have hnm_ne : nm ≠ m := by
            intro hcontra
            apply hm_rest
            rw [← hcontra]
            exact List.mem_map.mpr ⟨(nm, ci), htail, rfl⟩
          have hdf_d2 : d2.getCol? nm = df.getCol? nm := by
            rcases hbranch with ⟨_, col2, _, hd2⟩ | ⟨_, hd2⟩ <;>
              rw [hd2, getCol?_setCol_ne hnm_ne]
          exact ⟨col1, col', hdf_d2.symm.trans hgd2, hgdf', hnum, htext⟩

theorem coerceColumns_fixpoint :
    ∀ (decls : List (String × ColumnInfo)) (df : DF),
      (df.cols.map Prod.fst).Nodup →
      (∀ nm ci, (nm, ci) ∈ decls → ∃ col, df.getCol? nm = some col ∧
        (ci.type = "number" → NumDone col) ∧ (ci.type ≠ "number" → TextDone col)) →
      coerceColumns decls df = some df := by
  intro decls
  induction decls with
  | nil => intro df _ _; rfl
  | cons q rest ih =>
    intro df hnd hdone
    obtain ⟨m, mi⟩ := q
    obtain ⟨col, hg, hnum, htext⟩ := hdone m mi (List.mem_cons_self _ _)
    have hcc : coerceColumn df m mi.type = some df := by
      unfold coerceColumn
      rw [hg]
      simp only []
      by_cases hty : mi.type = "number"
      · rw [if_pos hty, transformNum_id_of_numDone (hnum hty),
          astype_id_of_numDone (hnum hty)]
        simp only [Option.some.injEq]
        exact setCol_self hnd hg
      · rw [if_neg hty, transformText_id_of_textDone (htext hty)]
        simp only [Option.some.injEq]
        exact setCol_self hnd hg
    rw [coerceColumns, hcc]
    exact ih df hnd (fun nm ci hmem => hdone nm ci (List.mem_cons_of_mem _ hmem))

/-- C3: for every table and schema for which the coercion loop succeeds:
in every column declared `number`, an empty-string cell comes out as the
missing marker and a non-empty string cell comes out as a `float32` — no
cell of the result is a string; in every column declared with a non-numeric
type, an empty-string cell becomes exactly `"Missing Value"` and every
other cell passes through unchanged; columns absent from the schema pass
through unmodified. -/
theorem coercion_column_types (decls : List (String × ColumnInfo)) (df df' : DF)
    (hnd : (decls.map Prod.fst).Nodup)
    (hc : coerceColumns decls df = some df') :
    (∀ nm ci, (nm, ci) ∈ decls → ci.type = "number" →
      ∃ col col', df.getCol? nm = some col ∧ df'.getCol? nm = some col' ∧
        List.Forall₂ (fun cin cout =>
          (cin = Cell.str "" → cout = Cell.na) ∧
          (∀ s, cin = Cell.str s → s ≠ "" → cout = Cell.float s)) col col' ∧
        (∀ cell ∈ col', ∀ s, cell ≠ Cell.str s)) ∧
    (∀ nm ci, (nm, ci) ∈ decls → ci.type ≠ "number" →
      ∃ col, df.getCol? nm = some col ∧
        df'.getCol? nm = some (col.map (fun cin =>
          if cin = Cell.str "" then Cell.str "Missing Value" else cin))) ∧
    (∀ m, m ∉ decls.map Prod.fst → df'.getCol? m = df.getCol? m) := by
  obtain ⟨hfst, hun, hdecl⟩ := coerceColumns_char decls df df' hnd hc
  refine ⟨?_, ?_, hun⟩
  · intro nm ci hmem hty
    obtain ⟨col, col', hg, hg', hnum, _⟩ := hdecl nm ci hmem
    have ha := hnum hty
    refine ⟨col, col', hg, hg', ?_, ?_⟩
    · have hf2 := astypeFloat32_forall2 ha
      rw [List.forall₂_map_left_iff] at hf2
      refine List.Forall₂.imp ?_ hf2
      intro cin cout hrel
      constructor
      · intro hin
        rw [hin] at hrel
        rw [show transformNumCell (Cell.str "") = Cell.na from rfl] at hrel
        rw [astypeCell, Option.some.injEq] at hrel
        exact hrel.symm
      · intro s hin hsne
        rw [hin] at hrel
        have htr : transformNumCell (Cell.str s) = Cell.str s := by
          rw [transformNumCell, if_neg]
          intro hcontra
          injection hcontra with hss
          exact hsne hss
        rw [htr, astypeCell] at hrel
        by_cases hfl : isFloatLiteral s
        · rw [if_pos hfl, Option.some.injEq] at hrel
          exact hrel.symm
        · rw [if_neg hfl] at hrel
          exact absurd hrel (by simp)
    · intro cell hcell s
      rcases numDone_astypeFloat32 ha cell hcell with hna | ⟨s2, hf⟩
      · rw [hna]
        exact fun hcontra => Cell.noConfusion hcontra
      · rw [hf]
        exact fun hcontra => Cell.noConfusion hcontra
  · intro nm ci hmem hty
    obtain ⟨col, col', hg, hg', _, htext⟩ := hdecl nm ci hmem
    refine ⟨col, hg, ?_⟩
    rw [hg', htext hty]
    rfl

/-- C8: the type-coercion step is idempotent — if the coercion loop turns a
table into a coerced table, re-running the loop on the coerced table
succeeds and returns it unchanged. -/
theorem coercion_idempotent (decls : List (String × ColumnInfo)) (df df' : DF)
    (hdf : (df.cols.map Prod.fst).Nodup)
    (hdecls : (decls.map Prod.fst).Nodup)
    (hc : coerceColumns decls df = some df') :
    coerceColumns decls df' = some df' := by
  obtain ⟨hfst, hun, hdecl⟩ := coerceColumns_char decls df df' hdecls hc
  apply coerceColumns_fixpoint decls df' (by rw [hfst]; exact hdf)
  intro nm ci hmem
  obtain ⟨col, col', hg, hg', hnum, htext⟩ := hdecl nm ci hmem
  refine ⟨col', hg', ?_, ?_⟩
  · intro hty
    exact numDone_astypeFloat32 (hnum hty)
  · intro hty
    rw [htext hty]
    exact textDone_transformText col

/-- Witness for C3 at the specification's §8 scenario: coercing the table
flattened from `demoData` against the demonstration schema turns `Amount`
into `[missing, float "50"]` and `Name` into `["Alice", "Missing Value"]`,
and the stated per-column properties hold there. -/
theorem coercion_column_types_witness :
    (demoColumns.map Prod.fst).Nodup ∧
    coerceColumns demoColumns demoDF = some demoDFCoerced ∧
    ((∀ nm ci, (nm, ci) ∈ demoColumns → ci.type = "number" →
      ∃ col col', demoDF.getCol? nm = some col ∧
        demoDFCoerced.getCol? nm = some col' ∧
        List.Forall₂ (fun cin cout =>
          (cin = Cell.str "" → cout = Cell.na) ∧
          (∀ s, cin = Cell.str s → s ≠ "" → cout = Cell.float s)) col col' ∧
        (∀ cell ∈ col', ∀ s, cell ≠ Cell.str s)) ∧
    (∀ nm ci, (nm, ci) ∈ demoColumns → ci.type ≠ "number" →
      ∃ col, demoDF.getCol? nm = some col ∧
        demoDFCoerced.getCol? nm = some (col.map (fun cin =>
          if cin = Cell.str "" then Cell.str "Missing Value" else cin))) ∧
    (∀ m, m ∉ demoColumns.map Prod.fst →
      demoDFCoerced.getCol? m = demoDF.getCol? m)) :=
  ⟨by decide, by decide,
   coercion_column_types demoColumns demoDF demoDFCoerced (by decide) (by decide)⟩

/-- Witness for C8: re-running the coercion loop on the already coerced
demonstration table returns it unchanged. -/
theorem coercion_idempotent_witness :
    (demoDF.cols.map Prod.fst).Nodup ∧
    (demoColumns.map Prod.fst).Nodup ∧
    coerceColumns demoColumns demoDF = some demoDFCoerced ∧
    coerceColumns demoColumns demoDFCoerced = some demoDFCoerced :=
  ⟨by decide, by decide, by decide,
   coercion_idempotent demoColumns demoDF demoDFCoerced (by decide) (by decide)
     (by decide)⟩
